import Mathlib

/-!
Shallow embedding of the OpenManus orchestration core (agent state machine,
memory, tool dispatch, reasoning-service retry policy, planning tool and
planning agent/flow) together with theorems settling the specification
claims about it.  Each definition is translated from the corresponding
Python source; Python truthiness, slicing and exception semantics are made
explicit where they matter.
-/

set_option maxHeartbeats 1000000

namespace OpenManus

/-- Python truthiness of an `Optional[str]`: `None` and `""` are falsy. -/
def truthyOpt : Option String → Bool
  | none => false
  | some s => s ≠ ""

/-! ## `app/schema.py` -/

/-- `Role` enumeration from `app/schema.py`. -/
inductive Role where
  | system
  | user
  | assistant
  | tool
deriving DecidableEq, Repr

/-- The wire value of a role (`Role.value` in the source). -/
def Role.value : Role → String
  | .system => "system"
  | .user => "user"
  | .assistant => "assistant"
  | .tool => "tool"

/-- `ToolChoice` enumeration from `app/schema.py`. -/
inductive ToolChoice where
  | NONE
  | AUTO
  | REQUIRED
deriving DecidableEq, Repr

/-- `AgentState` enumeration from `app/schema.py`. -/
inductive AgentState where
  | IDLE
  | RUNNING
  | FINISHED
  | ERROR
deriving DecidableEq, Repr

/-- `Function` model from `app/schema.py` (a tool call's function payload). -/
structure Function where
  name : String
  arguments : String
deriving DecidableEq, Repr

/-- `ToolCall` model from `app/schema.py`. -/
structure ToolCall where
  id : String
  function : Function
deriving DecidableEq, Repr

/-- `Message` model from `app/schema.py`.  Optional fields default to `None`. -/
structure Message where
  role : Role
  content : Option String := none
  tool_calls : Option (List ToolCall) := none
  name : Option String := none
  tool_call_id : Option String := none
deriving DecidableEq, Repr

/-- `Message.user_message` classmethod. -/
def Message.user_message (content : String) : Message :=
  { role := .user, content := some content }

/-- `Message.system_message` classmethod. -/
def Message.system_message (content : String) : Message :=
  { role := .system, content := some content }

/-- `Message.assistant_message` classmethod (content may be `None`). -/
def Message.assistant_message (content : Option String) : Message :=
  { role := .assistant, content := content }

/-- `Message.tool_message` classmethod. -/
def Message.tool_message (content : String) (name : String) (tool_call_id : String) :
    Message :=
  { role := .tool, content := some content, name := some name,
    tool_call_id := some tool_call_id }

/-- `Message.from_tool_calls` classmethod: an assistant message carrying the
raw tool calls proposed by the reasoning backend. -/
def Message.from_tool_calls (tool_calls : List ToolCall) (content : Option String) :
    Message :=
  { role := .assistant, content := content, tool_calls := some tool_calls }

/-- Python's negative-start slice `lst[-n:]`.  Note the `n = 0` edge case:
`lst[-0:]` is `lst[0:]`, the whole list. -/
def pySliceLast (l : List α) (n : Nat) : List α :=
  if n = 0 then l else l.drop (l.length - n)

/-- `Memory` model from `app/schema.py`. -/
structure Memory where
  messages : List Message := []
  max_messages : Nat := 100
deriving DecidableEq, Repr

/-- `Memory.add_message`: append, then if the list exceeds `max_messages`
keep `messages[-max_messages:]`. -/
def Memory.add_message (mem : Memory) (message : Message) : Memory :=
  let msgs := mem.messages ++ [message]
  if msgs.length > mem.max_messages then
    { mem with messages := pySliceLast msgs mem.max_messages }
  else
    { mem with messages := msgs }

/-- `Memory.add_messages`: `self.messages.extend(messages)` — no cap check. -/
def Memory.add_messages (mem : Memory) (messages : List Message) : Memory :=
  { mem with messages := mem.messages ++ messages }

/-- The last `n` elements of a list (order preserved). -/
def takeLast (l : List α) (n : Nat) : List α :=
  (l.reverse.take n).reverse

theorem takeLast_length (l : List α) (n : Nat) :
    (takeLast l n).length = min n l.length := by
  simp [takeLast]

theorem takeLast_of_length_le (l : List α) (n : Nat) (h : l.length ≤ n) :
    takeLast l n = l := by
  simp [takeLast, List.take_of_length_le, h]

theorem takeLast_append_takeLast (l r : List α) (n : Nat) :
    takeLast (takeLast l n ++ r) n = takeLast (l ++ r) n := by
  simp only [takeLast, List.reverse_append, List.reverse_reverse]
  rw [List.take_append_eq_append_take, List.take_take,
    List.take_append_eq_append_take]
  simp [min_comm]

theorem pySliceLast_eq_takeLast (l : List α) (n : Nat) (h : 0 < n) :
    pySliceLast l n = takeLast l n := by
  simp only [pySliceLast, if_neg (Nat.pos_iff_ne_zero.mp h), takeLast]
  rcases le_or_lt l.length n with hle | hlt
  · simp [Nat.sub_eq_zero_of_le hle, List.take_of_length_le, hle]
  · apply List.reverse_injective
    simp only [List.reverse_reverse]
    rw [List.reverse_drop]
    congr 1
    omega

theorem add_message_messages (mem : Memory) (m : Message)
    (h : 0 < mem.max_messages) :
    (mem.add_message m).messages = takeLast (mem.messages ++ [m]) mem.max_messages := by
  simp only [Memory.add_message]
  split
  · rename_i hgt
    simp [pySliceLast_eq_takeLast _ _ h]
  · rename_i hle
    push_neg at hle
    simp [takeLast_of_length_le _ _ hle]

theorem add_message_max (mem : Memory) (m : Message) :
    (mem.add_message m).max_messages = mem.max_messages := by
  simp only [Memory.add_message]
  split <;> rfl

/-- Claim C4 (counterexample): the claim says the stored message list never
exceeds `max_messages` under any sequence of `add_message` / `add_messages`
operations.  On a `Memory` capped at 2, a single `add_messages` with three
messages leaves three stored messages: `add_messages` extends the list
without enforcing the cap. -/
theorem c4_memory_cap_counterexample :
    ¬ (((Memory.mk [] 2).add_messages
        [Message.user_message "a", Message.user_message "b",
         Message.user_message "c"]).messages.length ≤ 2) := by
  decide

/-- Claim C4 (amended): only `add_message` enforces the cap.  For every
memory with a positive cap, any sequence of single-message `add_message`
operations leaves exactly the at-most-`max_messages` most recently added
messages, in insertion order (FIFO eviction), and in particular never more
than `max_messages` entries; `add_messages`, by contrast, merely appends its
argument without any cap check, so it can leave the list over the cap. -/
theorem c4_cap_enforced_by_add_message_only (mem : Memory) (msgs extra : List Message)
    (h : 0 < mem.max_messages) (hlen : mem.messages.length ≤ mem.max_messages) :
    (msgs.foldl Memory.add_message mem).messages
        = takeLast (mem.messages ++ msgs) mem.max_messages ∧
    (msgs.foldl Memory.add_message mem).messages.length ≤ mem.max_messages ∧
    (mem.add_messages extra).messages = mem.messages ++ extra := by
  have key : ∀ (msgs : List Message) (mem : Memory), 0 < mem.max_messages →
      mem.messages.length ≤ mem.max_messages →
      (msgs.foldl Memory.add_message mem).messages
          = takeLast (mem.messages ++ msgs) mem.max_messages ∧
      (msgs.foldl Memory.add_message mem).max_messages = mem.max_messages := by
    intro msgs
    induction msgs with
    | nil =>
      intro mem _ hle
      simpa using (takeLast_of_length_le _ _ hle).symm
    | cons m rest ih =>
      intro mem hpos hle
      simp only [List.foldl_cons]
      have hpos' : 0 < (mem.add_message m).max_messages := by
        rw [add_message_max]; exact hpos
      have hle' : (mem.add_message m).messages.length ≤ (mem.add_message m).max_messages := by
        rw [add_message_max, add_message_messages _ _ hpos, takeLast_length]
        exact Nat.min_le_left _ _
      obtain ⟨h1, h2⟩ := ih (mem.add_message m) hpos' hle'
      refine ⟨?_, by rw [h2, add_message_max]⟩
      rw [h1, add_message_max, add_message_messages _ _ hpos,
        takeLast_append_takeLast]
      simp
  obtain ⟨h1, _⟩ := key msgs mem h hlen
  refine ⟨h1, ?_, rfl⟩
  rw [h1, takeLast_length]
  exact Nat.min_le_left _ _

/-- Claim C4 amended theorem witness at concrete inputs. -/
theorem c4_cap_enforced_by_add_message_only_witness :
    (0 : Nat) < 2 ∧ ([] : List Message).length ≤ 2 ∧
    (([Message.user_message "a", Message.user_message "b",
       Message.user_message "c"].foldl Memory.add_message (Memory.mk [] 2)).messages
        = takeLast ([] ++ [Message.user_message "a", Message.user_message "b",
            Message.user_message "c"]) 2) :=
  ⟨by decide, by decide,
    (c4_cap_enforced_by_add_message_only (Memory.mk [] 2)
      [Message.user_message "a", Message.user_message "b", Message.user_message "c"]
      [] (by decide) (by decide)).1⟩

/-! ## `BaseAgent.is_stuck` from `app/agent/base.py` -/

/-- `BaseAgent.is_stuck`: with fewer than two messages, or a falsy last
content, the agent is not stuck; otherwise count prior messages (scanning
`messages[:-1]` in reverse) whose role is assistant and whose content equals
the last content, and compare with `duplicate_threshold`. -/
def is_stuck (duplicate_threshold : Nat) (mem : Memory) : Bool :=
  if mem.messages.length < 2 then false
  else
    match mem.messages.getLast? with
    | none => false
    | some last =>
      if truthyOpt last.content = false then false
      else
        let duplicate_count :=
          (mem.messages.dropLast.reverse).countP
            (fun msg => msg.role == Role.assistant && msg.content == last.content)
        decide (duplicate_count ≥ duplicate_threshold)

/-- Claim C10: for a memory whose last message has non-empty content,
`is_stuck` (at the default threshold 2) returns `true` exactly when that
content occurs in at least 2 prior assistant-role messages, and returns
`false` when only one prior assistant message carries the same content. -/
theorem c10_is_stuck_duplicate_threshold (mem : Memory) (last : Message) (c : String)
    (hlast : mem.messages.getLast? = some last)
    (hc : last.content = some c) (hne : c ≠ "") :
    (is_stuck 2 mem = true ↔
        2 ≤ (mem.messages.dropLast).countP
          (fun msg => msg.role == Role.assistant && msg.content == some c)) ∧
    ((mem.messages.dropLast).countP
          (fun msg => msg.role == Role.assistant && msg.content == some c) = 1 →
        is_stuck 2 mem = false) := by
  have hred : is_stuck 2 mem =
      (if mem.messages.length < 2 then false
       else decide (2 ≤ (mem.messages.dropLast).countP
          (fun msg => msg.role == Role.assistant && msg.content == some c))) := by
    unfold is_stuck
    split
    · rfl
    · rw [hlast]
      simp only [hc, truthyOpt]
      rw [if_neg (by simp [hne])]
      rw [List.countP_reverse]
  constructor
  · rw [hred]
    split
    · rename_i hlt
      -- fewer than two messages but a last message exists: exactly one
      -- message, so no prior assistant repeats
      have hne' : mem.messages ≠ [] := by
        intro hnil
        rw [hnil] at hlast
        simp at hlast
      have h1 : mem.messages.length = 1 := by
        have := List.length_pos.mpr hne'
        omega
      have hdrop : mem.messages.dropLast = [] := by
        cases hm : mem.messages with
        | nil => simp
        | cons a t =>
          rw [hm] at h1
          simp at h1
          simp [h1]
      simp [hdrop]
    · exact decide_eq_true_iff
  · intro hone
    rw [hred]
    split
    · rfl
    · rw [hone]
      decide

/-- Claim C10 witness: three identical assistant messages make the agent
stuck; the hypotheses of the theorem hold at this concrete memory. -/
theorem c10_is_stuck_duplicate_threshold_witness :
    (is_stuck 2 (Memory.mk [Message.assistant_message (some "x"),
        Message.assistant_message (some "x"),
        Message.assistant_message (some "x")] 100) = true ↔
      2 ≤ ((Memory.mk [Message.assistant_message (some "x"),
        Message.assistant_message (some "x"),
        Message.assistant_message (some "x")] 100).messages.dropLast).countP
          (fun msg => msg.role == Role.assistant && msg.content == some "x")) :=
  (c10_is_stuck_duplicate_threshold
    (Memory.mk [Message.assistant_message (some "x"),
      Message.assistant_message (some "x"),
      Message.assistant_message (some "x")] 100)
    (Message.assistant_message (some "x")) "x"
    (by decide) (by decide) (by decide)).1

/-! ## `BaseAgent.run` and `BaseAgent.state_context` from `app/agent/base.py`

The step body (`step()`, overridden by subclasses) is abstracted as a
function over the part of the agent it can see and mutate: the state, the
memory and the next-step prompt (no subclass touches `current_step` or
`max_steps`).  A step either returns a result string with the mutated core
(normal return) or raises, leaving the mutated core behind. -/

/-- The agent fields visible to `step()`. -/
structure AgentCore where
  state : AgentState
  memory : Memory
  next_step_prompt : Option String
  duplicate_threshold : Nat
deriving Repr

/-- Outcome of one `step()` call: normal return or a raised exception. -/
inductive StepOut where
  | ok (result : String) (core : AgentCore)
  | exn (core : AgentCore)

/-- The corrective instruction of `BaseAgent._handle_stuck_state`. -/
def STUCK_PROMPT : String :=
  "重複した応答が検出されました。新しい戦略を検討し、すでに試みて効果のなかった方法の繰り返しを避けてください。"

/-- `BaseAgent._handle_stuck_state`: prepend the corrective instruction to a
truthy next-step prompt. -/
def handle_stuck_state (c : AgentCore) : AgentCore :=
  match c.next_step_prompt with
  | some p =>
      if p ≠ "" then
        { c with next_step_prompt := some (STUCK_PROMPT ++ "\n" ++ p) }
      else c
  | none => c

/-- `BaseAgent` fields driving the run loop. -/
structure Agent where
  core : AgentCore
  current_step : Nat
  max_steps : Nat
deriving Repr

/-- Result of the while loop inside `BaseAgent.run`: either the loop
condition became false (carrying the final `current_step`, core and
accumulated results) or a step raised. -/
inductive LoopOut where
  | normal (cs : Nat) (core : AgentCore) (results : List String)
  | raised (cs : Nat) (core : AgentCore) (results : List String)

/-- The while loop of `BaseAgent.run`: while `current_step < max_steps` and
state is not `FINISHED`, increment the step counter, run `step()`, apply
stuck detection, and append `"Step {n}: {result}"` to the log.  `fuel`
bounds the recursion; every call site supplies `max_steps`, which is enough
because `current_step` strictly increases. -/
def runLoop (stepFn : Nat → AgentCore → StepOut) (max_steps : Nat) :
    Nat → Nat → AgentCore → List String → LoopOut
  | 0, cs, core, results => .normal cs core results
  | fuel + 1, cs, core, results =>
    if cs < max_steps ∧ core.state ≠ .FINISHED then
      let n := cs + 1
      match stepFn n core with
      | .exn core1 => .raised n core1 results
      | .ok step_result core1 =>
        let core2 :=
          if is_stuck core1.duplicate_threshold core1.memory then
            handle_stuck_state core1
          else core1
        runLoop stepFn max_steps fuel n core2
          (results ++ [s!"Step {n}: {step_result}"])
    else .normal cs core results

/-- Outcome of `BaseAgent.run`: the `RuntimeError` on a non-IDLE start, an
exception propagating out of a step, or a normal summary. -/
inductive RunResult where
  | stateError (a : Agent)
  | raised (a : Agent)
  | ok (summary : String) (a : Agent)

/-- The body of `BaseAgent.run` from the `state_context(RUNNING)` block on:
run the loop; on an exception, `state_context` sets `ERROR` and its
`finally` clause restores the previous state; on normal exit, if the step
budget was exhausted reset `current_step`, set `IDLE` and append the
termination notice, then the `finally` clause restores the previous state;
return the joined log or the sentinel string. -/
def runAux (stepFn : Nat → AgentCore → StepOut) (a : Agent) : RunResult :=
  let previous_state := a.core.state
  let core0 := { a.core with state := AgentState.RUNNING }
  match runLoop stepFn a.max_steps a.max_steps a.current_step core0 [] with
  | .raised cs core results =>
      let coreErr := { core with state := AgentState.ERROR }
      let coreFin := { coreErr with state := previous_state }
      let _ := results
      .raised { core := coreFin, current_step := cs, max_steps := a.max_steps }
  | .normal cs core results =>
      let m := a.max_steps
      let t : Nat × AgentCore × List String :=
        if cs ≥ a.max_steps then
          (0, { core with state := AgentState.IDLE },
            results ++ [s!"Terminated: Reached max steps ({m})"])
        else (cs, core, results)
      let coreFin := { t.2.1 with state := previous_state }
      .ok (if t.2.2 ≠ [] then String.intercalate "\n" t.2.2
           else "No steps executed")
        { core := coreFin, current_step := t.1, max_steps := a.max_steps }

/-- `BaseAgent.run`: fail fast with a `RuntimeError` unless the agent is
`IDLE`; append a truthy request to memory as a user message; then run the
loop inside `state_context(RUNNING)`. -/
def run (stepFn : Nat → AgentCore → StepOut) (a : Agent) (request : Option String) :
    RunResult :=
  if a.core.state ≠ .IDLE then .stateError a
  else
    runAux stepFn
      (if truthyOpt request then
        { a with core := { a.core with
            memory := a.core.memory.add_message
              (Message.user_message (request.getD "")) } }
      else a)

theorem runAux_state (stepFn : Nat → AgentCore → StepOut) (a : Agent) :
    (match runAux stepFn a with
     | .stateError _ => False
     | .raised a1 => a1.core.state = a.core.state
     | .ok _ a1 => a1.core.state = a.core.state) := by
  unfold runAux
  cases hres : runLoop stepFn a.max_steps a.max_steps a.current_step
      { a.core with state := AgentState.RUNNING } [] with
  | raised cs core results => simp [hres]
  | normal cs core results => simp [hres]

/-- Claim C3: starting from `IDLE`, `run` always hands back an agent whose
state is again `IDLE` — the `state_context` `finally` clause restores the
previous state both on normal completion and on an exception, so a
`FINISHED` state set by a terminating tool and an `ERROR` state set on
exception are reverted, and no caller observes `FINISHED` after `run`. -/
theorem c3_run_restores_idle_state (stepFn : Nat → AgentCore → StepOut)
    (a : Agent) (request : Option String) (h : a.core.state = .IDLE) :
    (match run stepFn a request with
     | .stateError _ => False
     | .raised a1 => a1.core.state = .IDLE ∧ a1.core.state ≠ .FINISHED
     | .ok _ a1 => a1.core.state = .IDLE ∧ a1.core.state ≠ .FINISHED) := by
  unfold run
  rw [if_neg (by simp [h])]
  set a1 := (if truthyOpt request then
      { a with core := { a.core with
          memory := a.core.memory.add_message
            (Message.user_message (request.getD "")) } }
      else a) with ha1
  have hstate : a1.core.state = AgentState.IDLE := by
    rw [ha1]; split <;> simp [h]
  have hrs := runAux_state stepFn a1
  revert hrs
  cases runAux stepFn a1 with
  | stateError a2 => intro hthis; exact hthis
  | raised a2 => intro hthis; rw [hstate] at hthis; exact ⟨hthis, by simp [hthis]⟩
  | ok s a2 => intro hthis; rw [hstate] at hthis; exact ⟨hthis, by simp [hthis]⟩

/-- A concrete step function for witnesses: finish on step 1, raise later. -/
def witnessStepFn : Nat → AgentCore → StepOut :=
  fun n c =>
    if n = 1 then .ok "done" { c with state := AgentState.FINISHED }
    else .exn c

/-- A concrete idle agent core for witnesses. -/
def witnessCore : AgentCore :=
  { state := AgentState.IDLE
    memory := {}
    next_step_prompt := none
    duplicate_threshold := 2 }

/-- A concrete idle agent for witnesses. -/
def witnessAgent : Agent :=
  { core := witnessCore, current_step := 0, max_steps := 5 }

/-- Claim C3 witness: a concrete agent whose first step reaches a
terminating tool; `run` still returns the agent in `IDLE`. -/
theorem c3_run_restores_idle_state_witness :
    (match run witnessStepFn witnessAgent (some "req") with
     | .stateError _ => False
     | .raised a1 => a1.core.state = .IDLE ∧ a1.core.state ≠ .FINISHED
     | .ok _ a1 => a1.core.state = .IDLE ∧ a1.core.state ≠ .FINISHED) :=
  c3_run_restores_idle_state witnessStepFn witnessAgent (some "req") (by decide)

theorem handle_stuck_state_state (c : AgentCore) :
    (handle_stuck_state c).state = c.state := by
  unfold handle_stuck_state
  cases c.next_step_prompt with
  | none => rfl
  | some p => by_cases hp : p ≠ "" <;> simp [hp]

theorem runLoop_exhausts (stepFn : Nat → AgentCore → StepOut) (max_steps : Nat)
    (hstep : ∀ n c, match stepFn n c with
      | .ok _ c1 => c1.state ≠ .FINISHED
      | .exn _ => False) :
    ∀ fuel cs core results, max_steps - cs ≤ fuel → cs ≤ max_steps →
      core.state ≠ .FINISHED →
      ∃ log core1, runLoop stepFn max_steps fuel cs core results
          = .normal max_steps core1 (results ++ log) ∧ log.length = max_steps - cs := by
  intro fuel
  induction fuel with
  | zero =>
    intro cs core results hfuel hle hstate
    have hcs : cs = max_steps := by omega
    subst hcs
    exact ⟨[], core, by simp [runLoop], by simp⟩
  | succ fuel ih =>
    intro cs core results hfuel hle hstate
    by_cases hlt : cs < max_steps
    · have hcond : cs < max_steps ∧ core.state ≠ .FINISHED := ⟨hlt, hstate⟩
      have hs := hstep (cs + 1) core
      cases hsf : stepFn (cs + 1) core with
      | exn c1 => rw [hsf] at hs; exact absurd hs (by simp)
      | ok r c1 =>
        rw [hsf] at hs
        set core2 := (if is_stuck c1.duplicate_threshold c1.memory then
            handle_stuck_state c1 else c1) with hcore2
        have hstate2 : core2.state ≠ .FINISHED := by
          rw [hcore2]
          split
          · rw [handle_stuck_state_state]; exact hs
          · exact hs
        obtain ⟨log, core1, h1, h2⟩ :=
          ih (cs + 1) core2 (results ++ [s!"Step {cs + 1}: {r}"])
            (by omega) (by omega) hstate2
        refine ⟨s!"Step {cs + 1}: {r}" :: log, core1, ?_, by simp [h2]; omega⟩
        rw [runLoop]
        rw [if_pos hcond]
        simp only [hsf]
        simp only [← hcore2]
        rw [h1]
        simp
    · have hcs : cs = max_steps := by omega
      subst hcs
      refine ⟨[], core, ?_, by simp⟩
      rw [runLoop, if_neg (by simp)]
      simp

/-- Claim C7: an agent started from `IDLE` with `current_step = 0` whose
step function never raises and never reaches a terminating tool (state
never becomes `FINISHED`) executes exactly `max_steps` steps — the per-step
log has one `"Step {n}: ..."` entry per executed step — then resets
`current_step` to 0, returns to `IDLE`, appends the termination notice, and
returns the newline-joined log (which is non-empty here; the sentinel
`"No steps executed"` is returned only for an empty log). -/
theorem c7_run_exhausts_step_budget (stepFn : Nat → AgentCore → StepOut)
    (a : Agent) (request : Option String)
    (hidle : a.core.state = .IDLE) (hcs : a.current_step = 0)
    (hstep : ∀ n c, match stepFn n c with
      | .ok _ c1 => c1.state ≠ .FINISHED
      | .exn _ => False) :
    ∃ log a1,
      run stepFn a request
          = .ok (String.intercalate "\n"
              (log ++ ["Terminated: Reached max steps (" ++ toString a.max_steps ++ ")"])) a1 ∧
      log.length = a.max_steps ∧
      a1.current_step = 0 ∧ a1.core.state = .IDLE := by
  unfold run
  rw [if_neg (by simp [hidle])]
  set a1 := (if truthyOpt request then
      { a with core := { a.core with
          memory := a.core.memory.add_message
            (Message.user_message (request.getD "")) } }
      else a) with ha1
  have hstate : a1.core.state = AgentState.IDLE := by
    rw [ha1]; split <;> simp [hidle]
  have hms : a1.max_steps = a.max_steps := by
    rw [ha1]; split <;> simp
  have hcs1 : a1.current_step = 0 := by
    rw [ha1]; split <;> simp [hcs]
  obtain ⟨log, core1, h1, h2⟩ :=
    runLoop_exhausts stepFn a1.max_steps hstep a1.max_steps a1.current_step
      { a1.core with state := AgentState.RUNNING } []
      (by omega) (by omega) (by simp)
  rw [hcs1] at h2
  simp only [Nat.sub_zero] at h2
  have hrun : runAux stepFn a1
      = RunResult.ok
          (String.intercalate "\n"
            (log ++ ["Terminated: Reached max steps ("
                ++ toString a1.max_steps ++ ")"]))
          { core := { core1 with state := a1.core.state }
            current_step := 0
            max_steps := a1.max_steps } := by
    unfold runAux
    simp only [h1, List.nil_append, ge_iff_le, le_refl, if_true, if_pos]
    have hne : log ++ ["Terminated: Reached max steps ("
        ++ toString a1.max_steps ++ ")"] ≠ [] := by simp
    simp [hne]
    rfl
  rw [hms] at hrun
  exact ⟨log, _, hrun, by rw [h2, hms], rfl, hstate⟩

/-- A step function that never finishes, for the C7 witness. -/
def neverFinishStepFn : Nat → AgentCore → StepOut :=
  fun _ c => .ok "acted" { c with state := AgentState.RUNNING }

/-- Claim C7 witness at a concrete agent with a budget of 5 steps. -/
theorem c7_run_exhausts_step_budget_witness :
    ∃ log a1,
      run neverFinishStepFn witnessAgent none
          = .ok (String.intercalate "\n"
              (log ++ ["Terminated: Reached max steps ("
                  ++ toString witnessAgent.max_steps ++ ")"])) a1 ∧
      log.length = witnessAgent.max_steps ∧
      a1.current_step = 0 ∧ a1.core.state = .IDLE :=
  c7_run_exhausts_step_budget neverFinishStepFn witnessAgent none
    (by decide) (by decide)
    (by intro n c; simp [neverFinishStepFn])

/-! ## Python exception classes

The classes used by the source: `Exception` is the root; the repository
defines `OpenManusError(Exception)`, `TokenLimitExceeded(OpenManusError)`
and `ToolError(Exception)` in `app/exceptions.py`; the libraries provide
`OpenAIError(Exception)`, `ValueError(Exception)`,
`json.JSONDecodeError(ValueError)`, `RuntimeError(Exception)` and
`IndexError(Exception)`. -/

/-- The exception classes relevant to the embedded code. -/
inductive ExcClass where
  | Exception
  | OpenManusError
  | TokenLimitExceeded
  | OpenAIError
  | ValueError
  | JSONDecodeError
  | ToolError
  | RuntimeError
  | IndexError
deriving DecidableEq, Repr

/-- Direct superclass of each class (`None` for the root `Exception`). -/
def pyBase : ExcClass → Option ExcClass
  | .Exception => none
  | .OpenManusError => some .Exception
  | .TokenLimitExceeded => some .OpenManusError
  | .OpenAIError => some .Exception
  | .ValueError => some .Exception
  | .JSONDecodeError => some .ValueError
  | .ToolError => some .Exception
  | .RuntimeError => some .Exception
  | .IndexError => some .Exception

/-- Walk the superclass chain (the chain has depth at most 3, so fuel 8 is
ample). -/
def isSubclassFuel : Nat → ExcClass → ExcClass → Bool
  | 0, _, _ => false
  | fuel + 1, c, t =>
    c = t ||
      match pyBase c with
      | some p => isSubclassFuel fuel p t
      | none => false

/-- Python `isinstance(e, t)` on exception classes. -/
def isSubclass (c t : ExcClass) : Bool := isSubclassFuel 8 c t

/-- A raised Python exception: its class and its message. -/
structure PyExc where
  cls : ExcClass
  msg : String
deriving DecidableEq, Repr

/-- The class of the error of an `Except` result, if any. -/
def errClass : Except PyExc α → Option ExcClass
  | .error e => some e.cls
  | .ok _ => none

/-! ## `ToolResult` from `app/tool/base.py` and the dispatcher from
`app/tool/tool_collection.py` / `ToolCallAgent.execute_tool`

A concrete tool's behaviour is abstracted as a function from the parsed
argument payload to an outcome: a returned `ToolResult`, a raised
`ToolError`, or any other raised exception.  `None` string fields are
collapsed to `""` (both are falsy in every position the source tests
them). -/

/-- `ToolResult` from `app/tool/base.py`. -/
structure ToolResult where
  output : String := ""
  error : String := ""
  system : String := ""
deriving DecidableEq, Repr

/-- `ToolResult.__bool__`: any truthy field. -/
def ToolResult.toBool (r : ToolResult) : Bool :=
  r.output ≠ "" || r.error ≠ "" || r.system ≠ ""

/-- `ToolResult.__str__`: `f"エラー: {self.error}" if self.error else self.output`. -/
def ToolResult.toStr (r : ToolResult) : String :=
  if r.error ≠ "" then "エラー: " ++ r.error else r.output

/-- `ToolFailure`: a `ToolResult` with only `error` set. -/
def ToolFailure (msg : String) : ToolResult :=
  { error := msg }

/-- The parsed JSON argument payload of a tool call, modelled as a
string-keyed dictionary. -/
def Args : Type := List (String × String)

/-- Outcome of running one concrete tool on a parsed payload. -/
inductive ToolOutcome where
  | result (r : ToolResult)
  | toolError (msg : String)
  | exn (e : PyExc)

/-- One registered tool: its name and its behaviour. -/
structure ToolSpec where
  name : String
  run : Args → ToolOutcome

/-- The dispatch environment of a `ToolCallAgent`: the tool collection, the
special (terminating) tool names, the observation cap, and the JSON parser
(abstracted; `None` models a `json.JSONDecodeError`). -/
structure ToolEnv where
  tools : List ToolSpec
  special_tool_names : List String
  max_observe : Option Nat
  jsonLoads : String → Option Args

/-- `tool_map` lookup: the dict comprehension keeps the last tool with a
given name, so search the reversed list. -/
def toolMapGet (env : ToolEnv) (name : String) : Option ToolSpec :=
  env.tools.reverse.find? (fun t => t.name = name)

/-- `ToolCollection.execute`: unknown names and raised `ToolError`s become
`ToolFailure` results; any other exception propagates. -/
def toolCollectionExecute (env : ToolEnv) (name : String) (tool_input : Args) :
    Except PyExc ToolResult :=
  match toolMapGet env name with
  | none => .ok (ToolFailure ("ツール " ++ name ++ " は無効です"))
  | some t =>
    match t.run tool_input with
    | .result r => .ok r
    | .toolError m => .ok (ToolFailure m)
    | .exn e => .error e

/-- `ToolCallAgent._is_special_tool`: case-insensitive membership. -/
def isSpecialTool (env : ToolEnv) (name : String) : Bool :=
  (env.special_tool_names.map String.toLower).contains name.toLower

/-- The body of the `try` block in `ToolCallAgent.execute_tool`: parse the
arguments (`json.loads(arguments or "\x7b\x7d")`), dispatch, build the
observation, and run `_handle_special_tool` (which, with the default
always-true finish predicate, sets the agent state to `FINISHED` for a
special tool). -/
def execute_tool_try (env : ToolEnv) (st : AgentState) (name : String)
    (arguments : String) : Except PyExc (String × AgentState) :=
  let argsE : Except PyExc Args :=
    if arguments = "" then .ok []
    else
      match env.jsonLoads arguments with
      | some a => .ok a
      | none => .error ⟨.JSONDecodeError, "Expecting value"⟩
  match argsE with
  | .error e => .error e
  | .ok args =>
    match toolCollectionExecute env name args with
    | .error e => .error e
    | .ok result =>
      let observation :=
        if result.toBool then
          "コマンド `" ++ name ++ "` の実行結果:\n" ++ result.toStr
        else "コマンド `" ++ name ++ "` は出力なしで完了しました"
      let st1 := if isSpecialTool env name then AgentState.FINISHED else st
      .ok (observation, st1)

/-- `ToolCallAgent.execute_tool`: guard malformed commands and unknown
names, then run the `try` block, converting a `json.JSONDecodeError` into
the parse-error string and any other exception into the generic error
string — the function never lets an exception escape. -/
def execute_tool (env : ToolEnv) (st : AgentState) (command : ToolCall) :
    String × AgentState :=
  if command.function.name = "" then ("エラー: 無効なコマンド形式", st)
  else
    let name := command.function.name
    if (toolMapGet env name).isNone then
      ("エラー: 不明なツール \x27" ++ name ++ "\x27", st)
    else
      match execute_tool_try env st name command.function.arguments with
      | .ok res => res
      | .error e =>
        if isSubclass e.cls .JSONDecodeError then
          ("エラー: " ++ name ++ "の引数のパースエラー: 無効なJSON形式", st)
        else
          ("エラー: ⚠️ ツール \x27" ++ name ++ "\x27 でエラーが発生しました: "
            ++ e.msg, st)

/-- The message of the `ValueError` raised by `act()` when a required tool
call is missing (`TOOL_CALL_REQUIRED` in `app/agent/toolcall.py`). -/
def TOOL_CALL_REQUIRED : String := "ツール呼び出しが必要ですが、提供されていません"

/-- The `for command in self.tool_calls` loop of `ToolCallAgent.act`:
dispatch each call in proposal order, truncate the observation when
`max_observe` is truthy, append exactly one tool-role message per call, and
collect the observations. -/
def actLoop (env : ToolEnv) (mem : Memory) (st : AgentState) :
    List ToolCall → List String × Memory × AgentState
  | [] => ([], mem, st)
  | command :: rest =>
    let er := execute_tool env st command
    let result :=
      match env.max_observe with
      | some n => if n ≠ 0 then er.1.take n else er.1
      | none => er.1
    let tool_msg := Message.tool_message result command.function.name command.id
    let rec_r := actLoop env (mem.add_message tool_msg) er.2 rest
    (result :: rec_r.1, rec_r.2.1, rec_r.2.2)

/-- `ToolCallAgent.act`: with no tool calls, fail loudly under `required`
tool choice (a `ValueError` with `TOOL_CALL_REQUIRED`), otherwise return
the last message content (`messages[-1]` raises `IndexError` on an empty
memory); with tool calls, run the dispatch loop and join the observations
with blank lines. -/
def act (env : ToolEnv) (tool_choices : ToolChoice) (tool_calls : List ToolCall)
    (mem : Memory) (st : AgentState) :
    Except PyExc (String × Memory × AgentState) :=
  if tool_calls.isEmpty then
    if tool_choices = ToolChoice.REQUIRED then
      .error ⟨.ValueError, TOOL_CALL_REQUIRED⟩
    else
      match mem.messages.getLast? with
      | none => .error ⟨.IndexError, "list index out of range"⟩
      | some last =>
        .ok (if truthyOpt last.content then last.content.getD ""
             else "実行するコンテンツまたはコマンドがありません", mem, st)
  else
    let t := actLoop env mem st tool_calls
    .ok (String.intercalate "\n\n" t.1, t.2.1, t.2.2)

/-- The decision logic of `ToolCallAgent.think` after the reasoning backend
has responded (lines 70–117 of `app/agent/toolcall.py`): store the proposed
tool calls, append the assistant message, and interpret the tool-choice
policy; returns the "should act" flag, the memory, and the stored calls. -/
def thinkAfterResponse (tool_choices : ToolChoice) (content : Option String)
    (respToolCalls : List ToolCall) (mem : Memory) :
    Bool × Memory × List ToolCall :=
  let tool_calls := respToolCalls
  if tool_choices = ToolChoice.NONE then
    if truthyOpt content then
      (true, mem.add_message (Message.assistant_message content), tool_calls)
    else (false, mem, tool_calls)
  else
    let assistant_msg :=
      if tool_calls ≠ [] then Message.from_tool_calls tool_calls content
      else Message.assistant_message content
    let mem1 := mem.add_message assistant_msg
    if tool_choices = ToolChoice.REQUIRED ∧ tool_calls = [] then
      (true, mem1, tool_calls)
    else if tool_choices = ToolChoice.AUTO ∧ tool_calls = [] then
      (truthyOpt content, mem1, tool_calls)
    else (tool_calls ≠ [], mem1, tool_calls)

theorem actLoop_adds_one_tool_message_per_call (env : ToolEnv) :
    ∀ (tool_calls : List ToolCall) (mem : Memory) (st : AgentState),
      ∃ msgs : List Message,
        (actLoop env mem st tool_calls).2.1 = msgs.foldl Memory.add_message mem ∧
        msgs.length = tool_calls.length ∧
        ∀ m ∈ msgs, m.role = Role.tool := by
  intro tool_calls
  induction tool_calls with
  | nil => intro mem st; exact ⟨[], rfl, rfl, by simp⟩
  | cons command rest ih =>
    intro mem st
    obtain ⟨msgs, hm, hl, hr⟩ :=
      ih (mem.add_message (Message.tool_message
        (match env.max_observe with
         | some n => if n ≠ 0 then (execute_tool env st command).1.take n
            else (execute_tool env st command).1
         | none => (execute_tool env st command).1)
        command.function.name command.id))
        (execute_tool env st command).2
    refine ⟨Message.tool_message
        (match env.max_observe with
         | some n => if n ≠ 0 then (execute_tool env st command).1.take n
            else (execute_tool env st command).1
         | none => (execute_tool env st command).1)
        command.function.name command.id :: msgs, ?_, by simp [hl], ?_⟩
    · simp only [actLoop, List.foldl_cons]
      exact hm
    · intro m hmem
      rcases List.mem_cons.mp hmem with hmem | hmem
      · rw [hmem]; rfl
      · exact hr m hmem

/-- Claim C5: tool dispatch never raises.  With a non-empty list of
proposed tool calls, `act` returns normally — whatever the tool names,
argument payloads or tool-internal outcomes — and the memory gains exactly
one tool-role message per dispatched call, appended in dispatch order.
Protocol-level failures are returned as descriptive strings: an unknown
tool name yields the unknown-tool string and a malformed JSON payload
yields the parse-error string (tool-internal failures were already
captured: a `ToolError` becomes a `ToolResult` with `error` set inside
`ToolCollection.execute`, and any other exception is caught by
`execute_tool`). -/
theorem c5_tool_dispatch_never_raises (env : ToolEnv) (tool_choices : ToolChoice)
    (tool_calls : List ToolCall) (mem : Memory) (st : AgentState)
    (h : tool_calls ≠ []) :
    (∃ (obs : String) (msgs : List Message) (st1 : AgentState),
      act env tool_choices tool_calls mem st
          = .ok (obs, msgs.foldl Memory.add_message mem, st1) ∧
      msgs.length = tool_calls.length ∧
      ∀ m ∈ msgs, m.role = Role.tool) ∧
    (∀ command : ToolCall, command.function.name ≠ "" →
      toolMapGet env command.function.name = none →
      (execute_tool env st command).1
          = "エラー: 不明なツール \x27" ++ command.function.name ++ "\x27") ∧
    (∀ command : ToolCall, command.function.name ≠ "" →
      (toolMapGet env command.function.name).isSome →
      command.function.arguments ≠ "" →
      env.jsonLoads command.function.arguments = none →
      (execute_tool env st command).1
          = "エラー: " ++ command.function.name
              ++ "の引数のパースエラー: 無効なJSON形式") := by
  refine ⟨?_, ?_, ?_⟩
  · obtain ⟨msgs, hm, hl, hr⟩ :=
      actLoop_adds_one_tool_message_per_call env tool_calls mem st
    refine ⟨String.intercalate "\n\n" (actLoop env mem st tool_calls).1, msgs,
      (actLoop env mem st tool_calls).2.2, ?_, hl, hr⟩
    unfold act
    rw [if_neg (by simp [h])]
    simp only [hm]
  · intro command hname hnone
    unfold execute_tool
    rw [if_neg hname]
    rw [if_pos (by simp [hnone])]
  · intro command hname hsome hargs hjson
    unfold execute_tool
    rw [if_neg hname]
    rw [if_neg (by simp [Option.isNone_iff_eq_none]; intro hc; rw [hc] at hsome; simp at hsome)]
    unfold execute_tool_try
    rw [if_neg hargs]
    rw [hjson]
    simp [isSubclass, isSubclassFuel]

/-- A concrete dispatch environment for witnesses: one tool named `echo`
that fails internally, no special tools, no truncation, and a JSON parser
that only accepts the empty object. -/
def witnessEnv : ToolEnv :=
  { tools := [{ name := "echo", run := fun _ => .exn ⟨.RuntimeError, "boom"⟩ }]
    special_tool_names := ["terminate"]
    max_observe := none
    jsonLoads := fun s => if s = "\x7b\x7d" then some [] else none }

/-- A concrete tool call for witnesses: unknown tool, malformed arguments. -/
def witnessCall : ToolCall :=
  { id := "call_1", function := { name := "missing", arguments := "not json" } }

/-- Claim C5 witness: dispatching the malformed call through `act` returns
normally with exactly one tool message appended. -/
theorem c5_tool_dispatch_never_raises_witness :
    [witnessCall] ≠ ([] : List ToolCall) ∧
    (∃ (obs : String) (msgs : List Message) (st1 : AgentState),
      act witnessEnv ToolChoice.AUTO [witnessCall] {} AgentState.RUNNING
          = .ok (obs, msgs.foldl Memory.add_message {}, st1) ∧
      msgs.length = [witnessCall].length ∧
      ∀ m ∈ msgs, m.role = Role.tool) :=
  ⟨by simp,
    (c5_tool_dispatch_never_raises witnessEnv ToolChoice.AUTO [witnessCall] {}
      AgentState.RUNNING (by simp)).1⟩

/-- Claim C8: under tool-choice `required`, when the reasoning backend
proposes zero tool invocations, `think` still returns `true` (act should
run) and the stored tool-call list is empty, so the subsequent `act` raises
a `ValueError` carrying the "tool call required" message instead of
silently returning. -/
theorem c8_required_zero_tool_calls_fails_in_act (env : ToolEnv)
    (content : Option String) (respToolCalls : List ToolCall) (mem : Memory)
    (st : AgentState) (h : respToolCalls = []) :
    (thinkAfterResponse ToolChoice.REQUIRED content respToolCalls mem).1 = true ∧
    (thinkAfterResponse ToolChoice.REQUIRED content respToolCalls mem).2.2 = [] ∧
    act env ToolChoice.REQUIRED
        (thinkAfterResponse ToolChoice.REQUIRED content respToolCalls mem).2.2
        (thinkAfterResponse ToolChoice.REQUIRED content respToolCalls mem).2.1 st
      = .error ⟨.ValueError, TOOL_CALL_REQUIRED⟩ := by
  subst h
  refine ⟨rfl, rfl, ?_⟩
  rfl

/-- Claim C8 witness at concrete inputs. -/
theorem c8_required_zero_tool_calls_fails_in_act_witness :
    (thinkAfterResponse ToolChoice.REQUIRED (some "thought") [] {}).1 = true ∧
    (thinkAfterResponse ToolChoice.REQUIRED (some "thought") [] {}).2.2 = [] ∧
    act witnessEnv ToolChoice.REQUIRED
        (thinkAfterResponse ToolChoice.REQUIRED (some "thought") [] {}).2.2
        (thinkAfterResponse ToolChoice.REQUIRED (some "thought") [] {}).2.1
        AgentState.RUNNING
      = .error ⟨.ValueError, TOOL_CALL_REQUIRED⟩ :=
  c8_required_zero_tool_calls_fails_in_act witnessEnv (some "thought") [] {}
    AgentState.RUNNING rfl

/-! ## The reasoning-service client from `app/llm.py`

The tokenizer is abstracted as a function `ct : String → Nat`; the network
backend is abstracted as the per-attempt reply.  The `@retry` decorator of
`ask` / `ask_tool` is `tenacity.retry` with `stop_after_attempt(6)` and
`retry_if_exception_type((OpenAIError, Exception, ValueError))`. -/

/-- The token-accounting state of one `LLM` client instance. -/
structure LLMState where
  total_input_tokens : Nat
  max_input_tokens : Option Nat
deriving DecidableEq, Repr

/-- `LLM.count_tokens`: empty text counts 0, otherwise ask the tokenizer. -/
def count_tokens (ct : String → Nat) (text : String) : Nat :=
  if text = "" then 0 else ct text

/-- `LLM.count_message_tokens`: 4 base tokens per message plus role,
truthy content, tool-call function names/arguments, truthy name and truthy
tool_call_id, plus 2 tokens for the message format. -/
def count_message_tokens (ct : String → Nat) (messages : List Message) : Nat :=
  (messages.foldl (fun acc message =>
    let acc := acc + 4
    let acc := acc + count_tokens ct message.role.value
    let acc :=
      if truthyOpt message.content then
        acc + count_tokens ct (message.content.getD "")
      else acc
    let acc :=
      match message.tool_calls with
      | some tcs =>
        if tcs ≠ [] then
          tcs.foldl (fun b tc =>
            b + count_tokens ct tc.function.name
              + count_tokens ct tc.function.arguments) acc
        else acc
      | none => acc
    let acc :=
      if truthyOpt message.name then
        acc + count_tokens ct (message.name.getD "")
      else acc
    if truthyOpt message.tool_call_id then
      acc + count_tokens ct (message.tool_call_id.getD "")
    else acc) 0) + 2

/-- `LLM.update_token_count`: add to the running total. -/
def update_token_count (llm : LLMState) (input_tokens : Nat) : LLMState :=
  { llm with total_input_tokens := llm.total_input_tokens + input_tokens }

/-- `LLM.check_token_limit`: within budget, or no budget configured. -/
def check_token_limit (llm : LLMState) (input_tokens : Nat) : Bool :=
  match llm.max_input_tokens with
  | some m => llm.total_input_tokens + input_tokens ≤ m
  | none => true

/-- `LLM.get_limit_error_message`. -/
def get_limit_error_message (llm : LLMState) (input_tokens : Nat) : String :=
  match llm.max_input_tokens with
  | some m =>
    if llm.total_input_tokens + input_tokens > m then
      let total := llm.total_input_tokens
      "リクエストが入力トークン制限を超える可能性があります（現在: "
        ++ toString total ++ ", 必要: " ++ toString input_tokens
        ++ ", 最大: " ++ toString m ++ "）"
    else "トークン制限を超過しました"
  | none => "トークン制限を超過しました"

/-- `LLM.format_messages`: keep only dict messages carrying a `content` or
`tool_calls` key (`to_dict` omits `None` fields); every message of the
embedded `Message` type has a valid role, so the role validation never
fires. -/
def format_messages (messages : List Message) : List Message :=
  messages.filter (fun m => m.content.isSome || m.tool_calls.isSome)

/-- The message list actually sent: system messages, when truthy, are
formatted and prepended to the formatted conversation. -/
def askFormattedMessages (messages system_msgs : List Message) : List Message :=
  if system_msgs ≠ [] then
    format_messages system_msgs ++ format_messages messages
  else format_messages messages

/-- The estimated input tokens of an `ask` request. -/
def askInputTokens (ct : String → Nat) (messages system_msgs : List Message) : Nat :=
  count_message_tokens ct (askFormattedMessages messages system_msgs)

/-- One tool schema as sent to the backend: whether the dict has a `type`
key, and the text `str(tool)` that is fed to the tokenizer. -/
structure ToolParam where
  hasType : Bool
  text : String
deriving DecidableEq, Repr

/-- The estimated input tokens of an `ask_tool` request: the message tokens
plus, when tools are supplied, the tokens of each rendered tool schema. -/
def askToolInputTokens (ct : String → Nat) (messages system_msgs : List Message)
    (tools : List ToolParam) : Nat :=
  askInputTokens ct messages system_msgs +
    (if tools ≠ [] then
      tools.foldl (fun acc t => acc + count_tokens ct t.text) 0
    else 0)

/-- The backend's reply to one non-tool attempt: the response content and
its reported prompt tokens, or a raised exception. -/
inductive BackendReply where
  | reply (content : String) (prompt_tokens : Nat)
  | exn (e : PyExc)

/-- One attempt of `LLM.ask` (the body inside the retry decorator): format,
estimate tokens, fail with `TokenLimitExceeded` over budget, otherwise call
the backend; non-streaming replies with no usable content raise
`ValueError` and otherwise record the reported prompt tokens; streaming
records the estimated tokens before the request and then joins and strips
the chunks, raising `ValueError` when empty. -/
def ask_attempt (ct : String → Nat) (llm : LLMState)
    (messages system_msgs : List Message) (stream : Bool)
    (backend : BackendReply) : Except PyExc (String × LLMState) :=
  let input_tokens := askInputTokens ct messages system_msgs
  if ! check_token_limit llm input_tokens then
    .error ⟨.TokenLimitExceeded, get_limit_error_message llm input_tokens⟩
  else if stream = false then
    match backend with
    | .exn e => .error e
    | .reply content pt =>
      if content = "" then .error ⟨.ValueError, "LLMからの応答が空または無効です"⟩
      else .ok (content, update_token_count llm pt)
  else
    let llm1 := update_token_count llm input_tokens
    match backend with
    | .exn e => .error e
    | .reply content _ =>
      let full_response := content.trim
      if full_response = "" then
        .error ⟨.ValueError, "ストリーミングLLMからの応答が空です"⟩
      else .ok (full_response, llm1)

/-- The backend's reply to one `ask_tool` attempt: content plus proposed
tool calls and reported prompt tokens, an invalid/empty response, or a
raised exception. -/
inductive ToolBackendReply where
  | reply (content : Option String) (tool_calls : List ToolCall)
      (prompt_tokens : Nat)
  | invalid
  | exn (e : PyExc)

/-- One attempt of `LLM.ask_tool`: format, estimate tokens including the
rendered tool schemas, fail with `TokenLimitExceeded` over budget, validate
the tool dicts, call the backend; an invalid response raises `ValueError`,
otherwise the reported prompt tokens are recorded.  (The `tool_choice`
validation never fires: the embedded `ToolChoice` holds only valid
values.) -/
def ask_tool_attempt (ct : String → Nat) (llm : LLMState)
    (messages system_msgs : List Message) (tools : List ToolParam)
    (backend : ToolBackendReply) :
    Except PyExc (Option String × List ToolCall × LLMState) :=
  let input_tokens := askToolInputTokens ct messages system_msgs tools
  if ! check_token_limit llm input_tokens then
    .error ⟨.TokenLimitExceeded, get_limit_error_message llm input_tokens⟩
  else if tools ≠ [] ∧ tools.any (fun t => ! t.hasType) then
    .error ⟨.ValueError, "各ツールは\x27type\x27フィールドを持つdictでなければなりません"⟩
  else
    match backend with
    | .exn e => .error e
    | .invalid => .error ⟨.ValueError, "LLMからの応答が無効または空です"⟩
    | .reply content tool_calls pt =>
      .ok (content, tool_calls, update_token_count llm pt)

/-- The retry predicate of the `@retry` decorators on `ask` and `ask_tool`:
`retry_if_exception_type((OpenAIError, Exception, ValueError))` — an
exception is retried when it is an instance of any of the three. -/
def askRetryPred (e : PyExc) : Bool :=
  isSubclass e.cls .OpenAIError || isSubclass e.cls .Exception
    || isSubclass e.cls .ValueError

/-- Outcome of a tenacity-wrapped call: success, a non-retryable exception
propagated as-is, or a `RetryError` wrapping the last exception after the
attempt cap. -/
inductive RetryOutcome (α : Type) where
  | ok (a : α)
  | raised (e : PyExc)
  | retryError (last : PyExc)

/-- `tenacity.retry` with `stop_after_attempt(maxAttempts)`: run attempt
`n`; a non-retryable exception propagates immediately; a retryable one is
retried until the attempt number reaches the cap, after which a
`RetryError` wrapping it is raised.  Returns the number of attempts made
and the outcome.  `fuel` bounds the recursion. -/
def tenacityRun (pred : PyExc → Bool) (maxAttempts : Nat)
    (call : Nat → Except PyExc α) : Nat → Nat → Nat × RetryOutcome α
  | fuel, n =>
    match call n with
    | .ok a => (n, .ok a)
    | .error e =>
      if pred e = false then (n, .raised e)
      else if maxAttempts ≤ n then (n, .retryError e)
      else
        match fuel with
        | 0 => (n, .retryError e)
        | fuel + 1 => tenacityRun pred maxAttempts call fuel (n + 1)

/-- `LLM.ask` with its retry decorator (6 attempts). -/
def ask (ct : String → Nat) (llm : LLMState)
    (messages system_msgs : List Message) (stream : Bool)
    (backend : Nat → BackendReply) : Nat × RetryOutcome (String × LLMState) :=
  tenacityRun askRetryPred 6
    (fun n => ask_attempt ct llm messages system_msgs stream (backend n)) 6 1

/-- `LLM.ask_tool` with its retry decorator (6 attempts). -/
def ask_tool (ct : String → Nat) (llm : LLMState)
    (messages system_msgs : List Message) (tools : List ToolParam)
    (backend : Nat → ToolBackendReply) :
    Nat × RetryOutcome (Option String × List ToolCall × LLMState) :=
  tenacityRun askRetryPred 6
    (fun n => ask_tool_attempt ct llm messages system_msgs tools (backend n)) 6 1

theorem tenacityRun_const_error {α : Type} (pred : PyExc → Bool) (e : PyExc)
    (call : Nat → Except PyExc α) (hc : ∀ n, call n = Except.error e)
    (hp : pred e = true) (maxA : Nat) :
    ∀ fuel n, maxA ≤ n + fuel → 0 < n → n ≤ maxA →
      tenacityRun pred maxA call fuel n = (maxA, .retryError e) := by
  intro fuel
  induction fuel with
  | zero =>
    intro n hsum hpos hle
    have hn : n = maxA := by omega
    subst hn
    rw [tenacityRun, hc]
    simp [hp]
  | succ fuel ih =>
    intro n hsum hpos hle
    rw [tenacityRun, hc]
    simp only [hp, Bool.true_eq_false, if_false]
    by_cases hge : maxA ≤ n
    · have hn : n = maxA := by omega
      subst hn
      simp
    · rw [if_neg hge]
      exact ih (n + 1) (by omega) (by omega) (by omega)

/-- Claim C1: the budget-exceeded error is **not** excluded from the retry
policy.  `TokenLimitExceeded` derives from `OpenManusError`, which derives
from `Exception`, and `Exception` is in the
`retry_if_exception_type((OpenAIError, Exception, ValueError))` tuple — so
a request whose estimated input tokens exceed the budget is attempted the
full 6 times by both `ask` and `ask_tool`, and the caller receives a
`RetryError` wrapping the budget error, not an immediate
`TokenLimitExceeded` with no retry as the claim (and the code's own
comment) state. -/
theorem c1_token_limit_error_is_retried (ct : String → Nat) (llm : LLMState)
    (messages system_msgs : List Message) (stream : Bool)
    (backend : Nat → BackendReply) (toolBackend : Nat → ToolBackendReply)
    (tools : List ToolParam)
    (h : check_token_limit llm (askInputTokens ct messages system_msgs) = false)
    (h2 : check_token_limit llm
        (askToolInputTokens ct messages system_msgs tools) = false) :
    askRetryPred ⟨.TokenLimitExceeded,
        get_limit_error_message llm (askInputTokens ct messages system_msgs)⟩
      = true ∧
    ask ct llm messages system_msgs stream backend
      = (6, .retryError ⟨.TokenLimitExceeded,
          get_limit_error_message llm (askInputTokens ct messages system_msgs)⟩) ∧
    ask_tool ct llm messages system_msgs tools toolBackend
      = (6, .retryError ⟨.TokenLimitExceeded,
          get_limit_error_message llm
            (askToolInputTokens ct messages system_msgs tools)⟩) := by
  have hpred : askRetryPred ⟨.TokenLimitExceeded,
      get_limit_error_message llm (askInputTokens ct messages system_msgs)⟩
      = true := by
    simp [askRetryPred, isSubclass, isSubclassFuel, pyBase]
  refine ⟨hpred, ?_, ?_⟩
  · unfold ask
    refine tenacityRun_const_error _ _ _ ?_ ?_ 6 6 1 (by omega) (by omega) (by omega)
    · intro n
      simp [ask_attempt, h]
    · simp [askRetryPred, isSubclass, isSubclassFuel, pyBase]
  · unfold ask_tool
    refine tenacityRun_const_error _ _ _ ?_ ?_ 6 6 1 (by omega) (by omega) (by omega)
    · intro n
      simp [ask_tool_attempt, h2]
    · simp [askRetryPred, isSubclass, isSubclassFuel, pyBase]

/-- Claim C1 witness: a concrete client with a zero budget and one user
message; the estimated tokens exceed the budget and both calls make 6
attempts ending in a `RetryError` wrapping the budget error. -/
theorem c1_token_limit_error_is_retried_witness :
    check_token_limit ⟨0, some 0⟩
        (askInputTokens String.length [Message.user_message "hello"] []) = false ∧
    ask String.length ⟨0, some 0⟩ [Message.user_message "hello"] [] true
        (fun _ => .exn ⟨.OpenAIError, "unused"⟩)
      = (6, .retryError ⟨.TokenLimitExceeded,
          get_limit_error_message ⟨0, some 0⟩
            (askInputTokens String.length [Message.user_message "hello"] [])⟩) :=
  ⟨by decide,
    (c1_token_limit_error_is_retried String.length ⟨0, some 0⟩
      [Message.user_message "hello"] [] true
      (fun _ => .exn ⟨.OpenAIError, "unused"⟩)
      (fun _ => .exn ⟨.OpenAIError, "unused"⟩) []
      (by decide) (by decide)).2.1⟩

/-! ## `PlanningTool` from `app/tool/planning.py` -/

/-- A stored plan (the dict built by `_create_plan`). -/
structure Plan where
  plan_id : String
  title : String
  steps : List String
  step_statuses : List String
  step_notes : List String
deriving DecidableEq, Repr

/-- The mutable state of one `PlanningTool`: the plan dict (insertion
ordered) and the active plan id. -/
structure PlanningToolState where
  plans : List (String × Plan)
  current_plan_id : Option String
deriving DecidableEq, Repr

/-- Replace the stored plan under an existing key (in-place dict mutation). -/
def setPlan (plans : List (String × Plan)) (pid : String) (p : Plan) :
    List (String × Plan) :=
  plans.map (fun pr => if pr.1 = pid then (pid, p) else pr)

/-- `"=" * n`. -/
def pyRepeat (s : String) (n : Nat) : String :=
  String.join (List.replicate n s)

/-- The status-marker dictionary of `_format_plan` (`.get(status, "[ ]")`). -/
def statusSymbol (status : String) : String :=
  if status == "not_started" then "[ ]"
  else if status == "in_progress" then "[→]"
  else if status == "completed" then "[✓]"
  else if status == "blocked" then "[!]"
  else "[ ]"

/-- Exact-rational model of Python's `f"{(completed/total)*100:.1f}"`:
one decimal digit, ties rounded to even (the double's representation error
is outside the embedding's scope; it does not affect any claim, which never
depends on the progress digits). -/
def formatPercent1 (completed total : Nat) : String :=
  let num := completed * 1000
  let q := num / total
  let r := num % total
  let tenths :=
    if 2 * r > total then q + 1
    else if 2 * r < total then q
    else if q % 2 = 0 then q else q + 1
  toString (tenths / 10) ++ "." ++ toString (tenths % 10)

/-- The per-step lines of `_format_plan`: `"{i}. {symbol} {step}\n"` plus an
indented notes line for truthy notes. -/
def planStepsLines : Nat → List (String × String × String) → String
  | _, [] => ""
  | i, (step, status, notes) :: rest =>
    let line := toString i ++ ". " ++ statusSymbol status ++ " " ++ step ++ "\n"
    let line := if notes ≠ "" then line ++ "   メモ: " ++ notes ++ "\n" else line
    line ++ planStepsLines (i + 1) rest

/-- `PlanningTool._format_plan`: header plus a `"="` rule sized to the
header (newline included), progress and status-breakdown lines, the literal
`"ステップ:"` header, and one line per step (`zip` stops at the shortest
list, like `strict=False`). -/
def formatPlan (plan : Plan) : String :=
  let header := "計画: " ++ plan.title ++ " (ID: " ++ plan.plan_id ++ ")\n"
  let output := header ++ pyRepeat "=" header.length ++ "\n\n"
  let total_steps := plan.steps.length
  let completed := plan.step_statuses.countP (fun st => st == "completed")
  let in_progress := plan.step_statuses.countP (fun st => st == "in_progress")
  let blocked := plan.step_statuses.countP (fun st => st == "blocked")
  let not_started := plan.step_statuses.countP (fun st => st == "not_started")
  let output := output ++ "進捗状況: " ++ toString completed ++ "/"
    ++ toString total_steps ++ " ステップ完了 "
  let output :=
    if total_steps > 0 then
      output ++ "(" ++ formatPercent1 completed total_steps ++ "%)\n"
    else output ++ "(0%)\n"
  let output := output ++ "状態: " ++ toString completed ++ " 完了, "
    ++ toString in_progress ++ " 進行中, " ++ toString blocked
    ++ " ブロック中, " ++ toString not_started ++ " 未着手\n\n"
  let output := output ++ "ステップ:\n"
  output ++ planStepsLines 0 (plan.steps.zip (plan.step_statuses.zip plan.step_notes))

/-- `PlanningTool._create_plan`. -/
def createPlan (s : PlanningToolState) (plan_id title : Option String)
    (steps : Option (List String)) : PlanningToolState × Except PyExc String :=
  if ! truthyOpt plan_id then
    (s, .error ⟨.ToolError, "createコマンドには`plan_id`パラメータが必要です"⟩)
  else
    let pid := plan_id.getD ""
    if (s.plans.lookup pid).isSome then
      (s, .error ⟨.ToolError, "ID \x27" ++ pid
        ++ "\x27 の計画は既に存在します。既存の計画を修正するにはupdateを使用してください。"⟩)
    else if ! truthyOpt title then
      (s, .error ⟨.ToolError, "createコマンドには`title`パラメータが必要です"⟩)
    else
      match steps with
      | none =>
        (s, .error ⟨.ToolError,
          "createコマンドの`steps`パラメータは空でない文字列のリストである必要があります"⟩)
      | some stps =>
        if stps = [] then
          (s, .error ⟨.ToolError,
            "createコマンドの`steps`パラメータは空でない文字列のリストである必要があります"⟩)
        else
          let plan : Plan :=
            { plan_id := pid
              title := title.getD ""
              steps := stps
              step_statuses := List.replicate stps.length "not_started"
              step_notes := List.replicate stps.length "" }
          ({ plans := s.plans ++ [(pid, plan)], current_plan_id := some pid },
            .ok ("ID: " ++ pid ++ " で計画を作成しました\n\n" ++ formatPlan plan))

/-- The status/notes rebuild loop of `_update_plan`: position `i` keeps its
old status and notes when the step text is unchanged there (accessing
`old_statuses[i]` / `old_notes[i]`, which raises `IndexError` when those
lists are shorter), and is reset to `not_started`/`""` otherwise. -/
def rebuildStepData (old_steps old_statuses old_notes : List String) :
    Nat → List String → Except PyExc (List String × List String)
  | _, [] => .ok ([], [])
  | i, step :: rest =>
    if old_steps.get? i = some step then
      match old_statuses.get? i, old_notes.get? i with
      | some st, some nt =>
        match rebuildStepData old_steps old_statuses old_notes (i + 1) rest with
        | .ok (ss, ns) => .ok (st :: ss, nt :: ns)
        | .error e => .error e
      | _, _ => .error ⟨.IndexError, "list index out of range"⟩
    else
      match rebuildStepData old_steps old_statuses old_notes (i + 1) rest with
      | .ok (ss, ns) => .ok ("not_started" :: ss, "" :: ns)
      | .error e => .error e

/-- `PlanningTool._update_plan`.  The title assignment mutates the stored
plan before the steps are validated/rebuilt, so an `IndexError` during the
rebuild leaves the title change behind. -/
def updatePlan (s : PlanningToolState) (plan_id title : Option String)
    (steps : Option (List String)) : PlanningToolState × Except PyExc String :=
  if ! truthyOpt plan_id then
    (s, .error ⟨.ToolError, "updateコマンドには`plan_id`パラメータが必要です"⟩)
  else
    let pid := plan_id.getD ""
    match s.plans.lookup pid with
    | none => (s, .error ⟨.ToolError, "ID: " ++ pid ++ " の計画が見つかりません"⟩)
    | some plan =>
      let plan1 := if truthyOpt title then { plan with title := title.getD "" } else plan
      match steps with
      | some stps =>
        if stps ≠ [] then
          match rebuildStepData plan1.steps plan1.step_statuses plan1.step_notes 0 stps with
          | .error e =>
            ({ s with plans := setPlan s.plans pid plan1 }, .error e)
          | .ok (new_statuses, new_notes) =>
            let plan2 := { plan1 with
              steps := stps
              step_statuses := new_statuses
              step_notes := new_notes }
            ({ s with plans := setPlan s.plans pid plan2 },
              .ok ("計画を更新しました: " ++ pid ++ "\n\n" ++ formatPlan plan2))
        else
          ({ s with plans := setPlan s.plans pid plan1 },
            .ok ("計画を更新しました: " ++ pid ++ "\n\n" ++ formatPlan plan1))
      | none =>
        ({ s with plans := setPlan s.plans pid plan1 },
          .ok ("計画を更新しました: " ++ pid ++ "\n\n" ++ formatPlan plan1))

/-- The valid statuses accepted by `_mark_step`. -/
def VALID_STEP_STATUSES : List String :=
  ["not_started", "in_progress", "completed", "blocked"]

/-- The `step_notes` assignment tail of `_mark_step` (runs after a possible
`step_statuses` assignment already mutated the stored plan). -/
def markStepNotes (s : PlanningToolState) (pid : String) (plan : Plan)
    (idx : Int) (i : Nat) (step_notes : Option String) :
    PlanningToolState × Except PyExc String :=
  if truthyOpt step_notes then
    if i < plan.step_notes.length then
      let plan1 := { plan with step_notes := plan.step_notes.set i (step_notes.getD "") }
      ({ s with plans := setPlan s.plans pid plan1 },
        .ok ("計画 \x27" ++ pid ++ "\x27 のステップ " ++ toString idx
          ++ " を更新しました。\n\n" ++ formatPlan plan1))
    else (s, .error ⟨.IndexError, "list assignment index out of range"⟩)
  else
    (s, .ok ("計画 \x27" ++ pid ++ "\x27 のステップ " ++ toString idx
      ++ " を更新しました。\n\n" ++ formatPlan plan))

/-- `PlanningTool._mark_step`: resolve the plan id (falling back to the
active plan), require `step_index`, reject an index outside
`[0, len(steps) - 1]`, validate the status, then overwrite the status and
notes entries in place. -/
def markStep (s : PlanningToolState) (plan_id : Option String)
    (step_index : Option Int) (step_status step_notes : Option String) :
    PlanningToolState × Except PyExc String :=
  let pidOpt : Option String :=
    if truthyOpt plan_id then plan_id
    else if truthyOpt s.current_plan_id then s.current_plan_id
    else none
  match pidOpt with
  | none =>
    (s, .error ⟨.ToolError,
      "アクティブな計画がありません。plan_idを指定するかアクティブな計画を設定してください。"⟩)
  | some pid =>
    match s.plans.lookup pid with
    | none => (s, .error ⟨.ToolError, "No plan found with ID: " ++ pid⟩)
    | some plan =>
      match step_index with
      | none =>
        (s, .error ⟨.ToolError, "mark_stepコマンドには`step_index`パラメータが必要です"⟩)
      | some idx =>
        if idx < 0 ∨ (plan.steps.length : Int) ≤ idx then
          (s, .error ⟨.ToolError, "無効なstep_index: " ++ toString idx
            ++ "。有効な範囲は0から" ++ toString ((plan.steps.length : Int) - 1)
            ++ "です。"⟩)
        else if truthyOpt step_status
            ∧ ! VALID_STEP_STATUSES.contains (step_status.getD "") then
          (s, .error ⟨.ToolError, "無効なstep_status: " ++ step_status.getD ""
            ++ "。有効なステータス: not_started, in_progress, completed, blocked"⟩)
        else
          let i := idx.toNat
          if truthyOpt step_status then
            if i < plan.step_statuses.length then
              let plan1 := { plan with
                step_statuses := plan.step_statuses.set i (step_status.getD "") }
              markStepNotes { s with plans := setPlan s.plans pid plan1 }
                pid plan1 idx i step_notes
            else (s, .error ⟨.IndexError, "list assignment index out of range"⟩)
          else
            markStepNotes s pid plan idx i step_notes

/-! ## The parallel-length invariant (claim C9) -/

/-- The spec's plan invariant: statuses and notes run parallel to steps. -/
def planInv (p : Plan) : Prop :=
  p.step_statuses.length = p.steps.length ∧ p.step_notes.length = p.steps.length

/-- Every stored plan satisfies the invariant. -/
def storeInv (s : PlanningToolState) : Prop :=
  ∀ pr ∈ s.plans, planInv pr.2

/-- One planning-tool mutation command. -/
inductive PlanOp where
  | create (plan_id title : Option String) (steps : Option (List String))
  | update (plan_id title : Option String) (steps : Option (List String))
  | mark (plan_id : Option String) (step_index : Option Int)
      (step_status step_notes : Option String)

/-- The state after one command (an error leaves whatever the command had
already mutated, exactly as the in-place Python mutation does). -/
def applyOp (s : PlanningToolState) : PlanOp → PlanningToolState
  | .create plan_id title steps => (createPlan s plan_id title steps).1
  | .update plan_id title steps => (updatePlan s plan_id title steps).1
  | .mark plan_id step_index step_status step_notes =>
      (markStep s plan_id step_index step_status step_notes).1

theorem lookup_mem {β : Type} : ∀ {l : List (String × β)} {pid : String} {p : β},
    l.lookup pid = some p → (pid, p) ∈ l := by
  intro l
  induction l with
  | nil => intro pid p h; simp [List.lookup] at h
  | cons pr rest ih =>
    intro pid p h
    rw [List.lookup] at h
    cases he : pid == pr.1 with
    | true =>
      simp only [he, Option.some.injEq] at h
      subst h
      apply List.mem_cons.mpr
      left
      have hk : pid = pr.1 := by simpa using he
      cases pr with
      | mk k v => simp_all
    | false =>
      simp only [he] at h
      apply List.mem_cons.mpr
      right
      exact ih h

theorem setPlan_storeInv {plans : List (String × Plan)} {pid : String} {p : Plan}
    (h : ∀ pr ∈ plans, planInv pr.2) (hp : planInv p) :
    ∀ pr ∈ setPlan plans pid p, planInv pr.2 := by
  intro pr hpr
  simp only [setPlan, List.mem_map] at hpr
  obtain ⟨q, hq, heq⟩ := hpr
  by_cases hk : q.1 = pid
  · rw [if_pos hk] at heq
    rw [← heq]
    exact hp
  · rw [if_neg hk] at heq
    rw [← heq]
    exact h q hq

theorem rebuildStepData_lengths (old_steps old_statuses old_notes : List String) :
    ∀ (stps : List String) (i : Nat) (ss ns : List String),
      rebuildStepData old_steps old_statuses old_notes i stps = .ok (ss, ns) →
      ss.length = stps.length ∧ ns.length = stps.length := by
  intro stps
  induction stps with
  | nil =>
    intro i ss ns h
    rw [rebuildStepData] at h
    cases h
    simp
  | cons step rest ih =>
    intro i ss ns h
    rw [rebuildStepData] at h
    split at h
    · split at h
      · rename_i st nt _
        cases hr : rebuildStepData old_steps old_statuses old_notes (i + 1) rest with
        | ok pr =>
          rw [hr] at h
          obtain ⟨ss1, ns1⟩ := pr
          cases h
          obtain ⟨h1, h2⟩ := ih (i + 1) ss1 ns1 hr
          simp [h1, h2]
        | error e => rw [hr] at h; cases h
      · cases h
    · cases hr : rebuildStepData old_steps old_statuses old_notes (i + 1) rest with
      | ok pr =>
        rw [hr] at h
        obtain ⟨ss1, ns1⟩ := pr
        cases h
        obtain ⟨h1, h2⟩ := ih (i + 1) ss1 ns1 hr
        simp [h1, h2]
      | error e => rw [hr] at h; cases h

theorem createPlan_storeInv (s : PlanningToolState) (plan_id title : Option String)
    (steps : Option (List String)) (h : storeInv s) :
    storeInv (createPlan s plan_id title steps).1 := by
  unfold createPlan
  dsimp only
  split
  · exact h
  · split
    · exact h
    · split
      · exact h
      · split
        · exact h
        · split
          · exact h
          · intro pr hpr
            rcases List.mem_append.mp hpr with hl | hr
            · exact h pr hl
            · simp at hr
              rw [hr]
              constructor <;> simp

theorem updatePlan_storeInv (s : PlanningToolState) (plan_id title : Option String)
    (steps : Option (List String)) (h : storeInv s) :
    storeInv (updatePlan s plan_id title steps).1 := by
  unfold updatePlan
  dsimp only
  split
  · exact h
  · cases hl : s.plans.lookup (plan_id.getD "") with
    | none => simp only [hl]; exact h
    | some plan =>
      simp only [hl]
      have hplan : planInv plan := h _ (lookup_mem hl)
      have hplan1 : planInv (if truthyOpt title
          then { plan with title := title.getD "" } else plan) := by
        split <;> simpa [planInv] using hplan
      set plan1 := (if truthyOpt title
          then { plan with title := title.getD "" } else plan) with hp1
      cases steps with
      | none => exact setPlan_storeInv h hplan1
      | some stps =>
        dsimp only
        by_cases hne : stps ≠ []
        · rw [if_pos hne]
          cases hr : rebuildStepData plan1.steps plan1.step_statuses
              plan1.step_notes 0 stps with
          | error e =>
            simp only [hr]
            exact setPlan_storeInv h hplan1
          | ok pr =>
            simp only [hr]
            obtain ⟨new_statuses, new_notes⟩ := pr
            obtain ⟨h1, h2⟩ := rebuildStepData_lengths _ _ _ stps 0 _ _ hr
            exact setPlan_storeInv h ⟨by simpa using h1, by simpa using h2⟩
        · rw [if_neg hne]
          exact setPlan_storeInv h hplan1

theorem markStepNotes_storeInv (s : PlanningToolState) (pid : String) (plan : Plan)
    (idx : Int) (i : Nat) (step_notes : Option String)
    (h : storeInv s) (hp : planInv plan) :
    storeInv (markStepNotes s pid plan idx i step_notes).1 := by
  unfold markStepNotes
  split
  · split
    · exact setPlan_storeInv h ⟨by simpa [planInv] using hp.1, by simpa [planInv] using hp.2⟩
    · exact h
  · exact h

theorem markStep_storeInv (s : PlanningToolState) (plan_id : Option String)
    (step_index : Option Int) (step_status step_notes : Option String)
    (h : storeInv s) :
    storeInv (markStep s plan_id step_index step_status step_notes).1 := by
  unfold markStep
  cases hpid : (if truthyOpt plan_id then plan_id
      else if truthyOpt s.current_plan_id then s.current_plan_id else none) with
  | none => exact h
  | some pid =>
    cases hl : s.plans.lookup pid with
    | none => simpa [hl] using h
    | some plan =>
      simp only [hl]
      have hplan : planInv plan := h _ (lookup_mem hl)
      cases step_index with
      | none => exact h
      | some idx =>
        dsimp only
        by_cases hb : idx < 0 ∨ (plan.steps.length : Int) ≤ idx
        · rw [if_pos hb]; exact h
        · rw [if_neg hb]
          by_cases hv : truthyOpt step_status = true
              ∧ (! VALID_STEP_STATUSES.contains (step_status.getD "")) = true
          · rw [if_pos hv]; exact h
          · rw [if_neg hv]
            by_cases hts : truthyOpt step_status = true
            · rw [if_pos hts]
              by_cases hi : idx.toNat < plan.step_statuses.length
              · rw [if_pos hi]
                apply markStepNotes_storeInv
                · exact setPlan_storeInv h
                    ⟨by simp [hplan.1], by simp [hplan.2]⟩
                · exact ⟨by simp [hplan.1], by simp [hplan.2]⟩
              · rw [if_neg hi]; exact h
            · rw [if_neg hts]
              exact markStepNotes_storeInv _ _ _ _ _ _ h hplan

/-- Claim C9: after any sequence of `create`, `update` and `mark_step`
commands, every stored plan satisfies
`len(step_statuses) == len(step_notes) == len(steps)` — `create`
initialises both parallel lists to the step count, `update` rebuilds them
to the new step count, and `mark_step` only overwrites in place. -/
theorem c9_plan_parallel_length_invariant (ops : List PlanOp)
    (s : PlanningToolState) (h : storeInv s) :
    storeInv (ops.foldl applyOp s) := by
  induction ops generalizing s with
  | nil => exact h
  | cons op rest ih =>
    rw [List.foldl_cons]
    apply ih
    cases op with
    | create plan_id title steps => exact createPlan_storeInv s plan_id title steps h
    | update plan_id title steps => exact updatePlan_storeInv s plan_id title steps h
    | mark plan_id step_index step_status step_notes =>
        exact markStep_storeInv s plan_id step_index step_status step_notes h

/-- Claim C9 witness: a concrete create/update/mark sequence keeps the
invariant from the empty store. -/
theorem c9_plan_parallel_length_invariant_witness :
    storeInv ([PlanOp.create (some "p1") (some "T") (some ["A", "B"]),
        PlanOp.update (some "p1") none (some ["A", "C", "D"]),
        PlanOp.mark (some "p1") (some 1) (some "completed") (some "note")
      ].foldl applyOp ⟨[], none⟩) :=
  c9_plan_parallel_length_invariant _ ⟨[], none⟩
    (by intro pr hpr; exact absurd hpr (List.not_mem_nil pr))

/-! ## Claim C6: `mark_step` at index `len(steps)` -/

/-- The store holding one plan `p1` with two steps, as `create` builds it. -/
def c6State : PlanningToolState :=
  (createPlan ⟨[], none⟩ (some "p1") (some "T") (some ["A", "B"])).1

/-- Claim C6 (counterexample): the claim says a `mark_step` addressed to
step index `k` (the current length, here 2) succeeds by lazily padding the
parallel lists.  In fact `_mark_step` rejects it with the invalid-index
`ToolError` and pads nothing — the store is unchanged. -/
theorem c6_mark_step_at_length_rejected_counterexample :
    (markStep c6State (some "p1") (some 2) (some "completed") none).1 = c6State ∧
    errClass (markStep c6State (some "p1") (some 2) (some "completed") none).2
      = some ExcClass.ToolError := by
  constructor
  · rfl
  · rfl

/-- Claim C6 (amended): `_mark_step` validates `0 <= step_index <
len(steps)` and rejects any index at or beyond the current length (in
particular index `k` itself) with a `ToolError`, leaving the stored plans
untouched; no lazy padding happens in the planning tool (the only padding
fallbacks live in the Planning Flow's direct-mutation paths). -/
theorem c6_mark_step_rejects_index_at_length (s : PlanningToolState)
    (pid : String) (plan : Plan) (idx : Int)
    (step_status step_notes : Option String)
    (hpid : pid ≠ "") (hlook : s.plans.lookup pid = some plan)
    (hidx : (plan.steps.length : Int) ≤ idx) :
    (markStep s (some pid) (some idx) step_status step_notes).1 = s ∧
    errClass (markStep s (some pid) (some idx) step_status step_notes).2
      = some ExcClass.ToolError := by
  unfold markStep
  have htr : truthyOpt (some pid) = true := by simp [truthyOpt, hpid]
  rw [if_pos htr]
  simp only [hlook]
  rw [if_pos (Or.inr hidx)]
  exact ⟨rfl, rfl⟩

/-- Claim C6 amended-theorem witness at the concrete two-step plan. -/
theorem c6_mark_step_rejects_index_at_length_witness :
    (markStep c6State (some "p1") (some 5) none none).1 = c6State ∧
    errClass (markStep c6State (some "p1") (some 5) none none).2
      = some ExcClass.ToolError :=
  c6_mark_step_rejects_index_at_length c6State "p1"
    { plan_id := "p1"
      title := "T"
      steps := ["A", "B"]
      step_statuses := ["not_started", "not_started"]
      step_notes := ["", ""] } 5 none none
    (by decide) (by decide) (by decide)

/-! ## `PlanningAgent._get_current_step_index` from `app/agent/planning.py`

The scanner re-parses the rendered plan text: it looks for the line whose
`strip()` equals the literal `"Steps:"` and then for the first following
line containing `"[ ]"` or `"[→]"`.  String splitting and stripping are
implemented over the character list so that every definition reduces in the
kernel. -/

/-- `str.split("\n")` on a character list. -/
def splitNl : List Char → List (List Char)
  | [] => [[]]
  | c :: rest =>
    if c = '\n' then [] :: splitNl rest
    else
      match splitNl rest with
      | [] => [[c]]
      | h :: t => (c :: h) :: t

/-- Python `str.splitlines()` for text whose only line break is `"\n"`:
split on `"\n"` and drop the trailing empty piece. -/
def pySplitlines (s : String) : List String :=
  let parts := (splitNl s.data).map String.mk
  match parts.getLast? with
  | some p => if p = "" then parts.dropLast else parts
  | none => parts

/-- Python `str.strip()`. -/
def pyStrip (s : String) : String :=
  String.mk
    (((s.data.dropWhile Char.isWhitespace).reverse.dropWhile
        Char.isWhitespace).reverse)

/-- `needle` occurs as a contiguous run inside `hay` (Python `in` on
strings), on character lists so that it reduces in the kernel. -/
def hasInfix (needle : List Char) : List Char → Bool
  | [] => needle.isEmpty
  | c :: rest => needle.isPrefixOf (c :: rest) || hasInfix needle rest

/-- `"[ ]" in line or "[→]" in line`. -/
def lineHasActiveMarker (line : String) : Bool :=
  hasInfix "[ ]".data line.data || hasInfix "[→]".data line.data

/-- The pure scan of `_get_current_step_index` over the rendered plan text:
find the `"Steps:"` line, then return the offset of the first following
line carrying an active-step marker. -/
def scanFirstActiveIndex (plan_text : String) : Option Nat :=
  let plan_lines := pySplitlines plan_text
  match plan_lines.findIdx? (fun line => pyStrip line = "Steps:") with
  | none => none
  | some steps_index =>
    (plan_lines.drop (steps_index + 1)).findIdx? lineHasActiveMarker

/-- Direct inspection of `step_statuses`: the first step whose status is
`not_started` or `in_progress` (the active statuses). -/
def directFirstActiveIndex (p : Plan) : Option Nat :=
  p.step_statuses.findIdx? (fun st => st == "not_started" || st == "in_progress")

/-- `PlanningAgent._get_current_step_index` end to end: fetch the active
plan's rendered text (`get_plan`), scan it, and on a hit mark that step
`in_progress` as a side effect; any failure path returns `None`. -/
def getCurrentStepIndex (s : PlanningToolState) (active_plan_id : Option String) :
    Option Nat × PlanningToolState :=
  match active_plan_id with
  | none => (none, s)
  | some pid =>
    match s.plans.lookup pid with
    | none => (none, s)
    | some plan =>
      match scanFirstActiveIndex (formatPlan plan) with
      | none => (none, s)
      | some i =>
        (some i,
          (markStep s (some pid) (some (i : Int)) (some "in_progress") none).1)

/-- The concrete plan of the claim's scenario: two steps, the first
completed, the second not started. -/
def c2Plan : Plan :=
  { plan_id := "p1"
    title := "T"
    steps := ["A", "B"]
    step_statuses := ["completed", "not_started"]
    step_notes := ["", ""] }

/-- The store holding `c2Plan` (built by `create` then `mark_step`). -/
def c2State : PlanningToolState :=
  (markStep c6State (some "p1") (some 0) (some "completed") none).1

/-- Claim C2 (code evaluation at the failing input): the renderer emits the
header line `"ステップ:"`, not `"Steps:"`, so the scanner never finds a
`"Steps:"` line and `_get_current_step_index` returns `None` — while direct
inspection of `step_statuses` finds active step index 1.  The round trip
the claim states does not hold. -/
theorem c2_scan_of_rendered_plan_diverges :
    c2State.plans.lookup "p1" = some c2Plan ∧
    (getCurrentStepIndex c2State (some "p1")).1 = none ∧
    directFirstActiveIndex c2Plan = some 1 ∧
    (pySplitlines (formatPlan c2Plan)).contains "ステップ:" = true ∧
    (pySplitlines (formatPlan c2Plan)).findIdx?
        (fun line => pyStrip line = "Steps:") = none := by
  refine ⟨?_, ?_, ?_, ?_, ?_⟩ <;> rfl

end OpenManus
